import Mathlib

/-!
Verification development for the `validation-tool` response-normalization
pipeline (`packages/validation-tool/`): shape detection, error normalization,
schema validation, and result classification, embedded shallowly over a
JSON-like value type that models the decoded JavaScript values the pipeline
receives.

Modelling conventions:
* JavaScript `null` and `undefined` are distinct constructors (`vNull`,
  `vUndefined`); a JS value of type `T | null` is an `Option JsonValue` at
  pipeline boundaries where the source types it that way.
* JS numbers are embedded as `Int`; `NaN` is not representable, so the
  `Number.isNaN` rejection in the number schema is vacuous in the model.
* JS objects are association lists in insertion order; key lookup takes the
  first match (JS object keys are unique, so lists fed from modelled JS
  objects never carry duplicate keys).
* String-typed fields read through `as string` casts (`code`, `message`,
  `msg`, `path`) are modelled for string-or-null-or-undefined values, the
  only ones the repository's callers and tests produce.
-/

inductive JsonValue where
  | vNull
  | vUndefined
  | vStr (s : String)
  | vNum (n : Int)
  | vBool (b : Bool)
  | vArr (items : List JsonValue)
  | vObj (fields : List (String × JsonValue))

instance (o : Option JsonValue) : Decidable (o = none) :=
  match o with
  | none => isTrue rfl
  | some _ => isFalse (fun h => Option.noConfusion h)

/-- `typeof v` for the embedded values (note `typeof null = "object"`). -/
def jsTypeof : JsonValue → String
  | .vNull => "object"
  | .vUndefined => "undefined"
  | .vStr _ => "string"
  | .vNum _ => "number"
  | .vBool _ => "boolean"
  | .vArr _ => "object"
  | .vObj _ => "object"

/-- `v == null` (loose equality): true exactly for `null` and `undefined`. -/
def isNullish : JsonValue → Bool
  | .vNull => true
  | .vUndefined => true
  | _ => false

/-- `typeof v === 'object' && v !== null`. -/
def isNonNullObject : JsonValue → Bool
  | .vArr _ => true
  | .vObj _ => true
  | _ => false

/-- First-match association-list lookup (JS property lookup on an object). -/
def lookupField : List (String × JsonValue) → String → Option JsonValue
  | [], _ => none
  | (k, v) :: rest, key => if k = key then some v else lookupField rest key

/-- A string key that denotes an in-bounds array index ("0", "1", ...; the
canonical numeral form only, as in JS array property keys). -/
def arrayIndexKey (n : Nat) (key : String) : Option Nat :=
  (List.range n).find? (fun i => toString i = key)

/-- `key in v` for objects and arrays (false on primitives). -/
def hasField (v : JsonValue) (key : String) : Bool :=
  match v with
  | .vObj fields => (lookupField fields key).isSome
  | .vArr items => (arrayIndexKey items.length key).isSome
  | _ => false

/-- `v[key]` property access; missing keys read as `undefined`. -/
def getField (v : JsonValue) (key : String) : JsonValue :=
  match v with
  | .vObj fields => (lookupField fields key).getD .vUndefined
  | .vArr items =>
      match arrayIndexKey items.length key with
      | some i => items.getD i .vUndefined
      | none => .vUndefined
  | _ => .vUndefined

/-- `Object.values(v)`. -/
def jsValues : JsonValue → List JsonValue
  | .vObj fields => fields.map Prod.snd
  | .vArr items => items
  | _ => []

/-- `Object.entries(v)` (array entries are keyed by their decimal index). -/
def jsEntries : JsonValue → List (String × JsonValue)
  | .vObj fields => fields
  | .vArr items => items.enum.map (fun p => (toString p.1, p.2))
  | _ => []

/-- `base[key] = v`: overwrite in place when the key exists, else append. -/
def setField : List (String × JsonValue) → String → JsonValue → List (String × JsonValue)
  | [], key, v => [(key, v)]
  | (k, w) :: rest, key, v =>
      if k = key then (k, v) :: rest else (k, w) :: setField rest key v

/-- `Object.assign(base, extra)` over association lists. -/
def assignFields (base extra : List (String × JsonValue)) : List (String × JsonValue) :=
  extra.foldl (fun acc kv => setField acc kv.1 kv.2) base

/-- `String(v)` for the primitive values this pipeline passes to it (the only
callsite applies it to non-object, non-string values). -/
def jsToString : JsonValue → String
  | .vNull => "null"
  | .vUndefined => "undefined"
  | .vStr s => s
  | .vNum n => toString n
  | .vBool b => cond b "true" "false"
  | .vArr _ => ""
  | .vObj _ => "[object Object]"

-- ════════════════════════════════════════════════════════
-- types.ts — core enumerations and records
-- ════════════════════════════════════════════════════════

inductive ErrorCode where
  | NO_ACCESS
  | VALIDATION
  | UNAUTHENTICATED
  | FORBIDDEN
  | NOT_FOUND
  | CONFLICT
  | RATE_LIMIT
  | UNAVAILABLE
  | DEPRECATED_FIELD
  | MAINTENANCE
  | INTERNAL
  | INVALID_RESPONSE
  | UNKNOWN
deriving DecidableEq

inductive Severity where
  | info
  | warning
  | error
deriving DecidableEq

inductive ResultKind where
  | success
  | partialResult
  | failure
deriving DecidableEq

inductive ResponseShape where
  | standard
  | singleError
  | stringErrors
  | validationMap
  | plainText
  | empty
  | unknown
deriving DecidableEq

/-- `NormalizedError` — `path` and `meta` are optional fields (`undefined`
when absent); `meta` holds an arbitrary JS object. -/
structure NormalizedError where
  code : ErrorCode
  message : String
  path : Option String
  severity : Severity
  retryable : Bool
  meta : Option JsonValue

instance (l : List NormalizedError) : Decidable (l = []) :=
  match l with
  | [] => isTrue rfl
  | _ :: _ => isFalse (fun h => List.noConfusion h)

/-- `ApiResult` — `data` is `T | null` in the source, hence an `Option`. -/
structure ApiResult where
  kind : ResultKind
  data : Option JsonValue
  errors : List NormalizedError
  httpStatus : Int

-- ════════════════════════════════════════════════════════
-- codes.ts — code mapping, free-text inference, severity, retryability
-- ════════════════════════════════════════════════════════

/-- ASCII uppercase of a string (`raw.toUpperCase()`; the known codes are
ASCII, so the Unicode cases of the JS function are not exercised). -/
def asciiUpper (s : String) : String :=
  String.mk (s.data.map Char.toUpper)

/-- ASCII lowercase of the characters of a string (used to model the
case-insensitive `i` regex flag on the ASCII patterns below). -/
def lowerChars (s : String) : List Char :=
  s.data.map Char.toLower

/-- The fixed `CODE_MAP` table. -/
def codeMapLookup : String → Option ErrorCode
  | "NO_ACCESS" => some .NO_ACCESS
  | "VALIDATION" => some .VALIDATION
  | "UNAUTHENTICATED" => some .UNAUTHENTICATED
  | "FORBIDDEN" => some .FORBIDDEN
  | "NOT_FOUND" => some .NOT_FOUND
  | "CONFLICT" => some .CONFLICT
  | "RATE_LIMIT" => some .RATE_LIMIT
  | "UNAVAILABLE" => some .UNAVAILABLE
  | "DEPRECATED_FIELD" => some .DEPRECATED_FIELD
  | "MAINTENANCE" => some .MAINTENANCE
  | "INTERNAL" => some .INTERNAL
  | "INVALID_RESPONSE" => some .INVALID_RESPONSE
  | _ => none

/-- `normalizeCode(raw)`: falsy (`undefined`/`null`/`''`) input is UNKNOWN,
otherwise a case-insensitive table lookup with UNKNOWN fallback. -/
def normalizeCode (raw : Option String) : ErrorCode :=
  match raw with
  | none => .UNKNOWN
  | some s => if s = "" then .UNKNOWN else (codeMapLookup (asciiUpper s)).getD .UNKNOWN

/-- Does `l` start with the pattern `pat` (plain character list match)? -/
def charsStartWith : List Char → List Char → Bool
  | _, [] => true
  | [], _ :: _ => false
  | c :: cs, p :: ps => c = p && charsStartWith cs ps

/-- Substring test: does `l` contain `pat` as a contiguous run? -/
def containsChars : List Char → List Char → Bool
  | [], pat => pat.isEmpty
  | c :: rest, pat => charsStartWith (c :: rest) pat || containsChars rest pat

/-- Does `l` begin with `a`, then zero or one characters accepted by `sep`,
then `b`?  Models the regex fragments `a.?b` (with `sep` = any non-newline)
and `a ?b` (with `sep` = a space). -/
def startsWithOptSep (a b : List Char) (sep : Char → Bool) (l : List Char) : Bool :=
  charsStartWith l (a ++ b) ||
    (charsStartWith l a &&
      (match l.drop a.length with
       | c :: cs => sep c && charsStartWith cs b
       | [] => false))

/-- Does `l` contain a match of `a`, optional `sep` character, `b`? -/
def containsOptSep (a b : List Char) (sep : Char → Bool) : List Char → Bool
  | [] => startsWithOptSep a b sep []
  | c :: rest => startsWithOptSep a b sep (c :: rest) || containsOptSep a b sep rest

/-- Case-insensitive containment of the (lowercase, ASCII) literal `pat`
in the already-lowercased character list `l`. -/
def hasPat (l : List Char) (pat : String) : Bool :=
  containsChars l pat.data

/-- `inferCodeFromString`: the ordered `PATTERNS` list; first match wins.
Each regex is an alternation of ASCII literals, except `log ?in` (optional
space), and `rate.?limit` / `try.?later` (optional non-newline character),
modelled by `containsOptSep`. -/
def inferCodeFromString (str : String) : ErrorCode :=
  let l := lowerChars str
  if hasPat l "no access" || hasPat l "missing permission" || hasPat l "missing group" ||
      hasPat l "account locked" then .NO_ACCESS
  else if hasPat l "validat" || hasPat l "invalid" || hasPat l "required" ||
      hasPat l "format" then .VALIDATION
  else if hasPat l "unauth" || containsOptSep "log".data "in".data (fun c => c = ' ') l ||
      hasPat l "session" || hasPat l "expired" then .UNAUTHENTICATED
  else if hasPat l "forbidden" || hasPat l "no permission" then .FORBIDDEN
  else if hasPat l "not found" then .NOT_FOUND
  else if hasPat l "conflict" || hasPat l "version mismatch" then .CONFLICT
  else if containsOptSep "rate".data "limit".data (fun c => c ≠ '\n') l ||
      hasPat l "too many" then .RATE_LIMIT
  else if hasPat l "unavailable" || containsOptSep "try".data "later".data (fun c => c ≠ '\n') l ||
      hasPat l "maintenance" then .UNAVAILABLE
  else if hasPat l "deprecated" || hasPat l "will be removed" then .DEPRECATED_FIELD
  else .UNKNOWN

/-- Characters of the regex class `[\w.[\]]` (path characters). -/
def isPathChar (c : Char) : Bool :=
  c.isAlphanum || c = '_' || c = '.' || c = '[' || c = ']'

/-- Characters of the regex class `\s` (whitespace). -/
def isWsChar (c : Char) : Bool :=
  c.isWhitespace

/-- One attempt of `/access to\s+([\w.[\]]+)/i` anchored at this suffix:
the literal matches case-insensitively, then at least one whitespace
character, then a maximal nonempty run of path characters (returned from the
original, case-preserved characters). -/
def tryAccessTo (l : List Char) : Option String :=
  if charsStartWith (l.map Char.toLower) "access to".data then
    let rest := l.drop 9
    let ws := rest.takeWhile isWsChar
    if ws.isEmpty then none
    else
      let body := (rest.drop ws.length).takeWhile isPathChar
      if body.isEmpty then none else some (String.mk body)
  else none

/-- One attempt of `/path:?\s*([\w.[\]]+)/i` anchored at this suffix. -/
def tryPathColon (l : List Char) : Option String :=
  if charsStartWith (l.map Char.toLower) "path".data then
    let rest := l.drop 4
    let rest2 := match rest with
      | ':' :: t => t
      | other => other
    let body := (rest2.dropWhile isWsChar).takeWhile isPathChar
    if body.isEmpty then none else some (String.mk body)
  else none

/-- Left-to-right scan for the first suffix where an anchored attempt
succeeds (regex-engine scanning order). -/
def scanFirst (f : List Char → Option String) : List Char → Option String
  | [] => f []
  | c :: rest =>
      match f (c :: rest) with
      | some r => some r
      | none => scanFirst f rest

/-- `extractPathFromString`: try the "access to `<path>`" pattern over the
whole string first, then the "path: `<path>`" pattern. -/
def extractPathFromString (str : String) : Option String :=
  match scanFirst tryAccessTo str.data with
  | some p => some p
  | none => scanFirst tryPathColon str.data

/-- `inferSeverity`: warnings for MAINTENANCE and DEPRECATED_FIELD, error
for everything else (including UNKNOWN). -/
def inferSeverity (code : ErrorCode) : Severity :=
  match code with
  | .MAINTENANCE => .warning
  | .DEPRECATED_FIELD => .warning
  | .UNKNOWN => .error
  | _ => .error

/-- `isRetryable`: true only for RATE_LIMIT and UNAVAILABLE. -/
def isRetryable (code : ErrorCode) : Bool :=
  match code with
  | .RATE_LIMIT => true
  | .UNAVAILABLE => true
  | _ => false

-- ════════════════════════════════════════════════════════
-- normalize.ts — any error representation → NormalizedError[]
-- ════════════════════════════════════════════════════════

/-- `fromString`: one error inferred from free text. -/
def fromString (str : String) : NormalizedError :=
  let code := inferCodeFromString str
  { code := code
  , message := str
  , path := extractPathFromString str
  , severity := inferSeverity code
  , retryable := isRetryable code
  , meta := none }

/-- A string-or-nullish field read (`x as string` where the source only ever
feeds strings, `null`, or `undefined`). -/
def fieldAsStr : JsonValue → Option String
  | .vStr s => some s
  | _ => none

/-- `v !== undefined` as a boolean test. -/
def isDefined : JsonValue → Bool
  | .vUndefined => false
  | _ => true

/-- `buildMeta`: collect every defined field outside the consumed set into a
fresh mapping, then `Object.assign` an explicit object-typed `meta` field on
top; `undefined` (i.e. `none`) when nothing was collected at all.  Note the
source does not skip the `meta` key itself during collection, so an explicit
`meta` object is both collected under the key `"meta"` and merged. -/
def buildMeta (err : List (String × JsonValue)) : Option JsonValue :=
  let skip := ["code", "message", "msg", "path", "severity", "retryable"]
  let collected := err.filter (fun kv => !(skip.contains kv.1) && isDefined kv.2)
  match lookupField err "meta" with
  | some (.vObj fs) => some (.vObj (assignFields collected (jsEntries (.vObj fs))))
  | some (.vArr xs) => some (.vObj (assignFields collected (jsEntries (.vArr xs))))
  | _ => if collected.isEmpty then none else some (.vObj collected)

/-- `fromObject`: one error from an object carrying `code` / `message` /
`msg` / `path` / `severity` / `retryable` / extras. -/
def fromObject (err : List (String × JsonValue)) : NormalizedError :=
  let getF := fun k => (lookupField err k).getD JsonValue.vUndefined
  let code := normalizeCode (fieldAsStr (getF "code"))
  let severity :=
    match getF "severity" with
    | .vStr "info" => Severity.info
    | .vStr "warning" => Severity.warning
    | .vStr "error" => Severity.error
    | _ => inferSeverity code
  { code := code
  , message :=
      match fieldAsStr (getF "message") with
      | some s => s
      | none =>
          match fieldAsStr (getF "msg") with
          | some s => s
          | none => "Unknown error"
  , path := fieldAsStr (getF "path")
  , severity := severity
  , retryable := (match getF "retryable" with | .vBool true => true | _ => false) || isRetryable code
  , meta := buildMeta err }

/-- `field.startsWith(pre)`. -/
def strStartsWith (s pre : String) : Bool :=
  charsStartWith s.data pre.data

/-- The string elements of an array value (callers only reach this under the
"every value is a string array" guard, where it is exactly the element
list). -/
def stringItems : JsonValue → List String
  | .vArr items => items.filterMap (fun v => match v with | .vStr s => some s | _ => none)
  | _ => []

/-- `fromValidationMap`: one VALIDATION error per field message, path
`input.<field>` (unless the field already carries the prefix). -/
def fromValidationMap (map : List (String × JsonValue)) : List NormalizedError :=
  (map.map (fun fv =>
    (stringItems fv.2).map (fun msg =>
      { code := ErrorCode.VALIDATION
      , message := msg
      , path := some (if strStartsWith fv.1 "input." then fv.1 else "input." ++ fv.1)
      , severity := Severity.error
      , retryable := false
      , meta := none }))).flatten

/-- Is `v` an array whose every element is a string? -/
def isStringArray : JsonValue → Bool
  | .vArr items => items.all (fun v => match v with | .vStr _ => true | _ => false)
  | _ => false

/-- The validation-map recognizer used by both the detector and the
normalizer: a nonempty value list in which every value is a string array. -/
def isValidationMapValues (values : List JsonValue) : Bool :=
  !values.isEmpty && values.all isStringArray

/-- The fallback UNKNOWN error with the raw value preserved under `meta`. -/
def fallbackUnknown (raw : JsonValue) : NormalizedError :=
  { code := .UNKNOWN
  , message := "Nieznany format błędu"
  , path := none
  , severity := .error
  , retryable := false
  , meta := some (.vObj [("rawValue", raw)]) }

/-- One array element of the `normalizeErrors` array branch: strings via
`fromString`, non-null objects (arrays included) via `fromObject`, anything
else becomes a single UNKNOWN error with the element's string form. -/
def normalizeItem (item : JsonValue) : List NormalizedError :=
  match item with
  | .vStr s => [fromString s]
  | .vObj fs => [fromObject fs]
  | .vArr xs => [fromObject (jsEntries (.vArr xs))]
  | other =>
      [{ code := .UNKNOWN
       , message := jsToString other
       , path := none
       , severity := .error
       , retryable := false
       , meta := none }]

/-- `normalizeErrors` — the normalizer entry point. -/
def normalizeErrors (raw : JsonValue) : List NormalizedError :=
  match raw with
  | .vNull => []
  | .vUndefined => []
  | .vStr s =>
      -- raw.trim() === '' → no errors
      if s.data.all Char.isWhitespace then [] else [fromString s]
  | .vArr items => (items.map normalizeItem).flatten
  | .vObj fs =>
      if isValidationMapValues (fs.map Prod.snd) then fromValidationMap fs
      else if (lookupField fs "code").isSome || (lookupField fs "message").isSome ||
          (lookupField fs "msg").isSome then [fromObject fs]
      else [fallbackUnknown raw]
  | other => [fallbackUnknown other]

-- ════════════════════════════════════════════════════════
-- detect.ts — response shape detection
-- ════════════════════════════════════════════════════════

/-- `detectShape` — classifies a decoded body into one of seven shapes. -/
def detectShape (body : JsonValue) : ResponseShape :=
  match body with
  | .vNull => .empty
  | .vUndefined => .empty
  | .vStr _ => .plainText
  | .vNum _ => .unknown
  | .vBool _ => .unknown
  | obj =>
      -- typeof body === 'object' from here on
      if hasField obj "error" && isNonNullObject (getField obj "error") then .singleError
      else if hasField obj "errors" then
        match getField obj "errors" with
        | .vStr _ => .stringErrors
        | .vArr items =>
            match items with
            | [] => if hasField obj "data" then .standard else .unknown
            | first :: _ =>
                match first with
                | .vStr _ => .stringErrors
                | .vObj _ => .standard
                | .vArr _ => .standard
                | .vNull => .standard  -- typeof null === 'object'
                | _ => .unknown
        | .vNull => if hasField obj "data" then .standard else .unknown
        | .vUndefined => if hasField obj "data" then .standard else .unknown
        | .vObj fs =>
            if isValidationMapValues (fs.map Prod.snd) then .validationMap
            else if hasField obj "data" then .standard
            else .unknown
        | _ =>
            -- non-object `errors` value (number/boolean): falls through
            if hasField obj "data" then .standard else .unknown
      else if hasField obj "data" then .standard
      else .unknown

-- ════════════════════════════════════════════════════════
-- classify.ts — result classification
-- ════════════════════════════════════════════════════════

/-- `classifyResult` — status ≥ 400 is always a failure; otherwise errors
with no data fail, errors with data are partial, and no errors succeed. -/
def classifyResult (httpStatus : Int) (data : Option JsonValue)
    (errors : List NormalizedError) : ResultKind :=
  if 400 ≤ httpStatus then .failure
  else if data.isNone ∧ 0 < errors.length then .failure
  else if data.isSome ∧ 0 < errors.length then .partialResult
  else .success

-- ════════════════════════════════════════════════════════
-- validate.ts — composable runtime schema validation
-- ════════════════════════════════════════════════════════

/-- `ValidationResult<T>`: `{ ok: true, value }` or `{ ok: false, errors }`. -/
inductive ValidationResult where
  | ok (value : JsonValue)
  | fail (errors : List NormalizedError)

/-- The closed set of schema builders exposed by `s.*`; a schema value is a
capability whose one operation is interpreted by `validateSchema`. -/
inductive SchemaE where
  | sString
  | sNumber
  | sBoolean
  | sNullable (inner : SchemaE)
  | sOptional (inner : SchemaE)
  | sArray (item : SchemaE)
  | sObject (shape : List (String × SchemaE))
  | sLiteral (expected : JsonValue)
  | sUnion (variants : List SchemaE)
  | sUnknown

/-- `makeError(path, message)` — an INVALID_RESPONSE validation error. -/
def makeError (path message : String) : NormalizedError :=
  { code := .INVALID_RESPONSE
  , message := message
  , path := some path
  , severity := .error
  , retryable := false
  , meta := none }

/-- `===` on the embedded values: value equality on primitives; objects and
arrays compare by reference in JS, and distinct freshly-decoded values are
never identical, so they compare unequal here (`literal` only ever holds a
primitive `expected` by its TS type). -/
def jsStrictEq : JsonValue → JsonValue → Bool
  | .vNull, .vNull => true
  | .vUndefined, .vUndefined => true
  | .vStr a, .vStr b => a = b
  | .vNum a, .vNum b => a = b
  | .vBool a, .vBool b => a = b
  | _, _ => false

/-- `JSON.stringify` as used in the `literal` mismatch message (template
rendering turns an `undefined` result into the text "undefined"; string
escaping and `undefined`-member dropping are not exercised by the modelled
literal values, which are primitives). -/
def jsonStringify : JsonValue → String
  | .vNull => "null"
  | .vUndefined => "undefined"
  | .vStr s => "\x22" ++ s ++ "\x22"
  | .vNum n => toString n
  | .vBool b => cond b "true" "false"
  | .vArr _ => "[]"
  | .vObj _ => "\x7b\x7d"

/-- Path prefixing for a failed array element: `[i].inner` when the inner
path is truthy (nonempty), bare `[i]` otherwise. -/
def prefixWithIndex (i : Nat) (err : NormalizedError) : NormalizedError :=
  { err with path :=
      match err.path with
      | some s => if s = "" then some ("[" ++ toString i ++ "]") else some ("[" ++ toString i ++ "]." ++ s)
      | none => some ("[" ++ toString i ++ "]") }

/-- Path prefixing for a failed object field: `key.inner` when the inner
path is truthy (nonempty), bare `key` otherwise. -/
def prefixWithKey (key : String) (err : NormalizedError) : NormalizedError :=
  { err with path :=
      match err.path with
      | some s => if s = "" then some key else some (key ++ "." ++ s)
      | none => some key }

mutual

/-- The interpretation of `schema.validate(data)` for every built schema. -/
def validateSchema : SchemaE → JsonValue → ValidationResult
  | .sString, v =>
      match v with
      | .vStr s => .ok (.vStr s)
      | other => .fail [makeError "" ("Expected string, got " ++ jsTypeof other)]
  | .sNumber, v =>
      match v with
      | .vNum n => .ok (.vNum n)  -- `Number.isNaN` rejection: NaN not representable here
      | other => .fail [makeError "" ("Expected number, got " ++ jsTypeof other)]
  | .sBoolean, v =>
      match v with
      | .vBool b => .ok (.vBool b)
      | other => .fail [makeError "" ("Expected boolean, got " ++ jsTypeof other)]
  | .sNullable inner, v =>
      -- data === null || data === undefined → ok(null)
      if isNullish v then .ok .vNull else validateSchema inner v
  | .sOptional inner, v =>
      match v with
      | .vUndefined => .ok .vUndefined
      | other => validateSchema inner other
  | .sArray item, v =>
      match v with
      | .vArr items =>
          let r := validateItems item items 0
          if r.2.isEmpty then .ok (.vArr r.1) else .fail r.2
      | other => .fail [makeError "" ("Expected array, got " ++ jsTypeof other)]
  | .sObject shape, v =>
      match v with
      | .vObj fields =>
          let r := validateShape shape (.vObj fields) [] []
          if r.2.isEmpty then .ok (.vObj r.1) else .fail r.2
      | .vNull => .fail [makeError "" "Expected object, got null"]
      | other =>
          -- arrays are rejected here with `typeof data`, i.e. "object"
          .fail [makeError "" ("Expected object, got " ++ jsTypeof other)]
  | .sLiteral expected, v =>
      if jsStrictEq v expected then .ok expected
      else .fail [makeError "" ("Expected " ++ jsonStringify expected ++ ", got " ++ jsonStringify v)]
  | .sUnion variants, v => validateUnion variants v
  | .sUnknown, v => .ok v

/-- The element loop of the array schema: successes collected in order,
failures prefixed with their index (never short-circuiting).  The per-variant
error lists the source accumulates for `union` are discarded there, so they
are not modelled. -/
def validateItems (item : SchemaE) : List JsonValue → Nat → List JsonValue × List NormalizedError
  | [], _ => ([], [])
  | x :: rest, i =>
      let r := validateSchema item x
      let tail := validateItems item rest (i + 1)
      match r with
      | .ok value => (value :: tail.1, tail.2)
      | .fail es => (tail.1, es.map (prefixWithIndex i) ++ tail.2)

/-- The declared-key loop of the object schema, with the source's mutable
`result` / `errors` accumulators made explicit. -/
def validateShape : List (String × SchemaE) → JsonValue → List (String × JsonValue) →
    List NormalizedError → List (String × JsonValue) × List NormalizedError
  | [], _, res, errs => (res, errs)
  | (key, sch) :: rest, obj, res, errs =>
      match validateSchema sch (getField obj key) with
      | .ok value => validateShape rest obj (setField res key value) errs
      | .fail es => validateShape rest obj res (errs ++ es.map (prefixWithKey key))

/-- The variant loop of the union schema: first success wins; total failure
yields the single generic error (per-variant errors are discarded). -/
def validateUnion : List SchemaE → JsonValue → ValidationResult
  | [], _ => .fail [makeError "" "No matching union variant"]
  | s :: rest, v =>
      match validateSchema s v with
      | .ok value => .ok value
      | .fail _ => validateUnion rest v

end

-- ════════════════════════════════════════════════════════
-- parse.ts — parseApiResponse pipeline entry point
-- ════════════════════════════════════════════════════════

/-- The synthetic error for the `standard` shape when `data` is a string. -/
def invalidDataError : NormalizedError :=
  { code := .INVALID_RESPONSE
  , message := "Pole \x22data\x22 ma nieprawidłowy typ: string"
  , path := none
  , severity := .error
  , retryable := false
  , meta := none }

/-- `typeof v === 'object'` (null included). -/
def isObjectTypeof : JsonValue → Bool
  | .vNull => true
  | .vArr _ => true
  | .vObj _ => true
  | _ => false

/-- The shape-dispatch `switch` of `parseApiResponse`: the error list and
candidate data accumulated before schema validation, in push order. -/
def collectShape (body : JsonValue) : List NormalizedError × Option JsonValue :=
  match detectShape body with
  | .empty =>
      ([{ code := .UNKNOWN
        , message := "Pusta odpowiedź z serwera"
        , path := none
        , severity := .error
        , retryable := false
        , meta := none }], none)
  | .plainText =>
      -- the detector only reports plain-text for string bodies
      let s := match body with | .vStr s => s | _ => ""
      ([{ code := .INTERNAL
        , message := if s = "" then "Server error" else s  -- (body as string) || 'Server error'
        , path := none
        , severity := .error
        , retryable := false
        , meta := none }], none)
  | .singleError => (normalizeErrors (getField body "error"), none)
  | .validationMap => (normalizeErrors (getField body "errors"), none)
  | .stringErrors =>
      ((if hasField body "errors" then normalizeErrors (getField body "errors") else []),
       if hasField body "data" && !(isNullish (getField body "data")) &&
           !(jsTypeof (getField body "data") = "string" : Bool) then
         some (getField body "data")
       else none)
  | .standard =>
      let e1 := if hasField body "errors" && !(isNullish (getField body "errors")) then
        normalizeErrors (getField body "errors") else []
      let e2 := if hasField body "error" && !(isNullish (getField body "error")) then
        normalizeErrors (getField body "error") else []
      let de : Option JsonValue × List NormalizedError :=
        if hasField body "data" then
          match getField body "data" with
          | .vStr _ => (none, [invalidDataError])
          | d => if isNullish d then (none, []) else (some d, [])
        else (none, [])
      (e1 ++ e2 ++ de.2, de.1)
  | .unknown =>
      ([{ code := .UNKNOWN
        , message := "Nierozpoznany kształt odpowiedzi API"
        , path := none
        , severity := .error
        , retryable := false
        , meta := some (if isObjectTypeof body then body else .vObj [("rawValue", body)]) }], none)

/-- The `data.`-re-prefixing applied to schema-validation errors appended by
the entry point (`err.path ? 'data.' + err.path : undefined`). -/
def reprefixData (err : NormalizedError) : NormalizedError :=
  { err with path :=
      match err.path with
      | some s => if s = "" then none else some ("data." ++ s)
      | none => none }

/-- The schema-validation step: run only when a schema was supplied and the
candidate data is non-null; mismatch keeps the original data and appends the
re-prefixed errors, success replaces the data with the validated value. -/
def applyValidationStep (schema : Option SchemaE) (data : Option JsonValue)
    (errors : List NormalizedError) : Option JsonValue × List NormalizedError :=
  match schema, data with
  | some sch, some d =>
      match validateSchema sch d with
      | .ok value => (some value, errors)
      | .fail es => (some d, errors ++ es.map reprefixData)
  | _, _ => (data, errors)

/-- `parseApiResponse` — detect → normalize → validate → classify. -/
def parseApiResponse (httpStatus : Int) (body : JsonValue)
    (schema : Option SchemaE) : ApiResult :=
  let c := collectShape body
  let v := applyValidationStep schema c.2 c.1
  { kind := classifyResult httpStatus v.1 v.2
  , data := v.1
  , errors := v.2
  , httpStatus := httpStatus }

-- ════════════════════════════════════════════════════════
-- Theorems
-- ════════════════════════════════════════════════════════

/-- The returned `kind` field is the classifier applied to the returned
`data` and `errors` fields. -/
theorem parse_kind_eq_classify (httpStatus : Int) (body : JsonValue) (schema : Option SchemaE) :
    (parseApiResponse httpStatus body schema).kind =
      classifyResult httpStatus (parseApiResponse httpStatus body schema).data
        (parseApiResponse httpStatus body schema).errors := rfl

/-- C1: for every call `parseApiResponse(httpStatus, body, schema?)`, the
returned kind is: `failure` when `httpStatus ≥ 400`, unconditionally;
otherwise `failure` when the accumulated data is null and at least one error
exists; otherwise `partial` when data is non-null and at least one error
exists; otherwise `success`. -/
theorem parse_kind_matches_classifier (httpStatus : Int) (body : JsonValue)
    (schema : Option SchemaE) :
    (parseApiResponse httpStatus body schema).kind =
      (if 400 ≤ httpStatus then ResultKind.failure
       else if (parseApiResponse httpStatus body schema).data = none ∧
           (parseApiResponse httpStatus body schema).errors ≠ [] then ResultKind.failure
       else if ¬ (parseApiResponse httpStatus body schema).data = none ∧
           (parseApiResponse httpStatus body schema).errors ≠ [] then ResultKind.partialResult
       else ResultKind.success) := by
  rw [parse_kind_eq_classify]
  by_cases hs : (400 : Int) ≤ httpStatus
  · simp [classifyResult, hs]
  · rcases hd : (parseApiResponse httpStatus body schema).data with _ | d <;>
      rcases he : (parseApiResponse httpStatus body schema).errors with _ | ⟨e0, es⟩ <;>
      simp [classifyResult, hs, hd, he]

/-- C2 counterexample: a failure result can carry non-null data — a standard
body with data under HTTP 500 classifies as `failure` while `data` keeps the
extracted value. -/
theorem failure_with_nonnull_data :
    (parseApiResponse 500 (.vObj [("data", .vNum 1)]) none).kind = ResultKind.failure ∧
    (parseApiResponse 500 (.vObj [("data", .vNum 1)]) none).data = some (.vNum 1) :=
  ⟨rfl, rfl⟩

/-- C2 (amended): below HTTP 400 a `failure` result always carries null
data; `failure` with non-null data occurs exactly through the unconditional
status-based branch (`httpStatus ≥ 400`). -/
theorem failure_data_null_below_400 (httpStatus : Int) (body : JsonValue)
    (schema : Option SchemaE) (hs : httpStatus < 400)
    (hf : (parseApiResponse httpStatus body schema).kind = ResultKind.failure) :
    (parseApiResponse httpStatus body schema).data = none := by
  have hns : ¬ (400 : Int) ≤ httpStatus := not_le.mpr hs
  rw [parse_kind_eq_classify] at hf
  rcases hd : (parseApiResponse httpStatus body schema).data with _ | d
  · rfl
  · rw [hd] at hf
    by_cases he : 0 < (parseApiResponse httpStatus body schema).errors.length <;>
      simp [classifyResult, hns, he] at hf

/-- Witness for `failure_data_null_below_400` at status 200 with a null body
(which produces a synthetic error and hence a failure). -/
theorem failure_data_null_below_400_witness :
    (parseApiResponse 200 JsonValue.vNull none).data = none :=
  failure_data_null_below_400 200 JsonValue.vNull none (by decide) rfl

/-- C6: an object body whose `error` field holds a non-null object detects
as `single-error`, regardless of any `errors` or `data` fields — this check
precedes all `errors`-field inspection. -/
theorem detect_single_error_first (fields : List (String × JsonValue)) (ev : JsonValue)
    (hlook : lookupField fields "error" = some ev) (hobj : isNonNullObject ev = true) :
    detectShape (.vObj fields) = ResponseShape.singleError := by
  simp [detectShape, hasField, getField, hlook, hobj]

/-- Witness for `detect_single_error_first`: an `error` object beside both an
`errors` field and a `data` field. -/
theorem detect_single_error_first_witness :
    detectShape (.vObj [("error", .vObj [("code", .vStr "X")]), ("errors", .vStr "boom"),
      ("data", .vNum 1)]) = ResponseShape.singleError :=
  detect_single_error_first _ (.vObj [("code", .vStr "X")]) rfl rfl

/-- C8: the 422 validation-map scenario — three VALIDATION errors in
field-then-message order, the first two at `input.phoneNumber`, the third at
`input.surname`, and overall kind `failure`. -/
theorem parse_validation_map_422 :
    parseApiResponse 422
      (.vObj [("errors", .vObj
        [ ("phoneNumber", .vArr [.vStr "Invalid format", .vStr "Too short"])
        , ("surname", .vArr [.vStr "Required"]) ])]) none =
    { kind := .failure
    , data := none
    , errors :=
        [ { code := .VALIDATION, message := "Invalid format", path := some "input.phoneNumber"
          , severity := .error, retryable := false, meta := none }
        , { code := .VALIDATION, message := "Too short", path := some "input.phoneNumber"
          , severity := .error, retryable := false, meta := none }
        , { code := .VALIDATION, message := "Required", path := some "input.surname"
          , severity := .error, retryable := false, meta := none } ]
    , httpStatus := 422 } := rfl

/-- C9: a non-empty plain-text body at HTTP 200 yields a failure with exactly
one INTERNAL error whose message is the body text. -/
theorem parse_plaintext_200 (body : String) (h : body ≠ "") :
    parseApiResponse 200 (.vStr body) none =
      { kind := .failure
      , data := none
      , errors := [{ code := .INTERNAL, message := body, path := none
                   , severity := .error, retryable := false, meta := none }]
      , httpStatus := 200 } := by
  simp [parseApiResponse, collectShape, detectShape, applyValidationStep, classifyResult, h]

/-- Witness for `parse_plaintext_200` at the spec's example body. -/
theorem parse_plaintext_200_witness :
    parseApiResponse 200 (.vStr "Internal Server Error") none =
      { kind := .failure
      , data := none
      , errors := [{ code := .INTERNAL, message := "Internal Server Error", path := none
                   , severity := .error, retryable := false, meta := none }]
      , httpStatus := 200 } :=
  parse_plaintext_200 "Internal Server Error" (by decide)

/-- C10: a body `{ data: null }` under any status below 400 yields
`success` with null data and no errors. -/
theorem parse_null_data_success (httpStatus : Int) (schema : Option SchemaE)
    (hs : httpStatus < 400) :
    parseApiResponse httpStatus (.vObj [("data", .vNull)]) schema =
      { kind := .success, data := none, errors := [], httpStatus := httpStatus } := by
  have hns : ¬ (400 : Int) ≤ httpStatus := not_le.mpr hs
  rcases schema with _ | sch <;>
    simp [parseApiResponse, collectShape, detectShape, applyValidationStep, classifyResult,
      hasField, getField, lookupField, isNullish, hns]

/-- Witness for `parse_null_data_success` at status 200 with no schema. -/
theorem parse_null_data_success_witness :
    parseApiResponse 200 (.vObj [("data", .vNull)]) none =
      { kind := .success, data := none, errors := [], httpStatus := 200 } :=
  parse_null_data_success 200 none (by decide)

/-- C5 counterexample: an explicit `retryable: false` on a RATE_LIMIT error
object does not survive normalization — the code-derived default wins and
the result is retryable. -/
theorem retryable_explicit_false_overridden :
    normalizeErrors (.vObj [("code", .vStr "RATE_LIMIT"), ("retryable", .vBool false)]) =
      [{ code := .RATE_LIMIT, message := "Unknown error", path := none
       , severity := .error, retryable := true, meta := none }] ∧
    (fromObject [("code", .vStr "RATE_LIMIT"), ("retryable", .vBool false)]).retryable ≠ false :=
  ⟨rfl, by decide⟩

/-- C5 (amended): whenever the normalized code is itself retryable
(RATE_LIMIT or UNAVAILABLE), the resulting `retryable` is true regardless of
any explicit `retryable` field — an explicit boolean can only turn a
non-retryable code retryable (when it is literally `true`), never the
reverse. -/
theorem fromObject_retryable_code_wins (err : List (String × JsonValue))
    (h : isRetryable (fromObject err).code = true) :
    (fromObject err).retryable = true := by
  simp only [fromObject] at h ⊢
  rw [h]
  simp

/-- Witness for `fromObject_retryable_code_wins`: UNAVAILABLE with an
explicit `retryable: false`. -/
theorem fromObject_retryable_code_wins_witness :
    (fromObject [("code", .vStr "UNAVAILABLE"), ("retryable", .vBool false)]).retryable = true :=
  fromObject_retryable_code_wins [("code", .vStr "UNAVAILABLE"), ("retryable", .vBool false)] rfl

/-- C3 counterexample: for the object schema `{items: array(number)}`
validated against `{items: ['x']}` the reported path is `items.[0]` — the
object key and the bracket index are joined with a `.` separator, not
inline. -/
theorem object_array_path_has_dot :
    validateSchema (.sObject [("items", .sArray .sNumber)])
        (.vObj [("items", .vArr [.vStr "x"])]) =
      .fail [{ code := .INVALID_RESPONSE, message := "Expected number, got string"
             , path := some "items.[0]", severity := .error, retryable := false, meta := none }] ∧
    ("items.[0]" : String) ≠ "items[0]" := by
  constructor
  · simp [validateSchema, validateItems, validateShape, makeError, getField, lookupField,
      setField, prefixWithIndex, prefixWithKey, jsTypeof]
    rfl
  · decide

/-- Is the value a JS number? -/
def isNumberV : JsonValue → Bool
  | .vNum _ => true
  | _ => false

/-- The number schema fails on every non-number with the expected-vs-actual
message. -/
theorem validateNumber_not_num (v : JsonValue) (h : isNumberV v = false) :
    validateSchema .sNumber v =
      .fail [makeError "" ("Expected number, got " ++ jsTypeof v)] := by
  cases v <;> simp [isNumberV] at h ⊢ <;> simp [validateSchema]

/-- C3 (amended): child segments are joined to the parent locator with `.`
for object keys even when the child segment is a bracket index; for
`{items: array(number)}` against `{items: [v]}` with a non-number `v` the
reported path is `items.[0]`. -/
theorem object_array_path_amended (v : JsonValue) (h : isNumberV v = false) :
    validateSchema (.sObject [("items", .sArray .sNumber)])
        (.vObj [("items", .vArr [v])]) =
      .fail [{ code := .INVALID_RESPONSE, message := "Expected number, got " ++ jsTypeof v
             , path := some "items.[0]", severity := .error, retryable := false, meta := none }] := by
  have hnum := validateNumber_not_num v h
  simp [validateSchema, validateItems, validateShape, hnum, makeError, getField, lookupField,
    setField, prefixWithIndex, prefixWithKey]
  rfl

/-- Witness for `object_array_path_amended` at a boolean element. -/
theorem object_array_path_amended_witness :
    validateSchema (.sObject [("items", .sArray .sNumber)])
        (.vObj [("items", .vArr [.vBool true])]) =
      .fail [{ code := .INVALID_RESPONSE, message := "Expected number, got boolean"
             , path := some "items.[0]", severity := .error, retryable := false, meta := none }] :=
  object_array_path_amended (.vBool true) rfl

/-- C4 counterexample: validating `{a: 1, b: 2}` against `object({a: number})`
succeeds but returns `{a: 1}` — the undeclared key `b` is not passed
through. -/
theorem object_drops_undeclared_key :
    validateSchema (.sObject [("a", .sNumber)]) (.vObj [("a", .vNum 1), ("b", .vNum 2)]) =
      .ok (.vObj [("a", .vNum 1)]) ∧
    hasField (.vObj [("a", .vNum 1)]) "b" = false := by
  refine ⟨?_, rfl⟩
  simp [validateSchema, validateShape, setField, getField, lookupField]

/-- A successful association-list lookup means the key occurs in the list. -/
theorem lookupField_isSome_mem (l : List (String × JsonValue)) (k : String)
    (h : (lookupField l k).isSome = true) : k ∈ l.map Prod.fst := by
  induction l with
  | nil => simp [lookupField] at h
  | cons p rest ih =>
      rcases p with ⟨k0, v0⟩
      by_cases hk : k0 = k
      · simp [hk]
      · rw [lookupField, if_neg hk] at h
        simp only [List.map, List.mem_cons]
        exact Or.inr (ih h)

/-- `setField` introduces no key other than the assigned one. -/
theorem setField_keys (l : List (String × JsonValue)) (key : String) (v : JsonValue)
    (k : String) (h : k ∈ (setField l key v).map Prod.fst) :
    k ∈ l.map Prod.fst ∨ k = key := by
  induction l with
  | nil =>
      simp [setField] at h
      exact Or.inr h
  | cons p rest ih =>
      rcases p with ⟨k0, v0⟩
      by_cases h0 : k0 = key
      · rw [setField, if_pos h0] at h
        simp only [List.map, List.mem_cons] at h
        rcases h with h | h
        · exact Or.inl (by simp [h])
        · exact Or.inl (by simp [h])
      · rw [setField, if_neg h0] at h
        simp only [List.map, List.mem_cons] at h
        rcases h with h | h
        · exact Or.inl (by simp [h])
        · rcases ih h with h1 | h1
          · exact Or.inl (by simp only [List.map, List.mem_cons]; exact Or.inr h1)
          · exact Or.inr h1

/-- Every key of the object-validator's result accumulator came from the
initial accumulator or from a declared key of the shape. -/
theorem validateShape_keys (shape : List (String × SchemaE)) :
    ∀ (obj : JsonValue) (res : List (String × JsonValue)) (errs : List NormalizedError)
      (k : String), k ∈ ((validateShape shape obj res errs).1.map Prod.fst) →
      k ∈ res.map Prod.fst ∨ k ∈ shape.map Prod.fst := by
  induction shape with
  | nil =>
      intro obj res errs k h
      simp only [validateShape] at h
      exact Or.inl h
  | cons p rest ih =>
      intro obj res errs k h
      rcases p with ⟨key, sch⟩
      rw [validateShape] at h
      cases hv : validateSchema sch (getField obj key) with
      | ok value =>
          rw [hv] at h
          rcases ih obj (setField res key value) errs k h with h1 | h2
          · rcases setField_keys res key value k h1 with hx | hx
            · exact Or.inl hx
            · exact Or.inr (by simp [hx])
          · exact Or.inr (by simp only [List.map, List.mem_cons]; exact Or.inr h2)
      | fail es =>
          rw [hv] at h
          rcases ih obj res (errs ++ es.map (prefixWithKey key)) k h with h1 | h2
          · exact Or.inl h1
          · exact Or.inr (by simp only [List.map, List.mem_cons]; exact Or.inr h2)

/-- C4 (amended): undeclared keys are ignored by validation (they are never
flagged) but they are dropped, not passed through — every key present in a
successful object-validation result is a declared key of the shape. -/
theorem object_success_keys_declared (shape : List (String × SchemaE)) (d w : JsonValue)
    (hok : validateSchema (.sObject shape) d = .ok w)
    (k : String) (hk : hasField w k = true) :
    k ∈ shape.map Prod.fst := by
  cases d with
  | vObj fields =>
      rw [validateSchema] at hok
      by_cases he : (validateShape shape (.vObj fields) [] []).2.isEmpty
      · rw [if_pos he] at hok
        cases hok
        rw [hasField] at hk
        have hmem := lookupField_isSome_mem _ _ hk
        rcases validateShape_keys shape (.vObj fields) [] [] k hmem with h1 | h1
        · simp at h1
        · exact h1
      · rw [if_neg he] at hok
        cases hok
  | vNull => simp [validateSchema] at hok
  | vUndefined => simp [validateSchema] at hok
  | vStr s => simp [validateSchema] at hok
  | vNum n => simp [validateSchema] at hok
  | vBool b => simp [validateSchema] at hok
  | vArr items => simp [validateSchema] at hok

/-- Witness for `object_success_keys_declared`: the surviving key `a` of a
successful validation with an undeclared extra key is declared. -/
theorem object_success_keys_declared_witness :
    "a" ∈ ([("a", SchemaE.sNumber)].map Prod.fst) :=
  object_success_keys_declared [("a", .sNumber)]
    (.vObj [("a", .vNum 1), ("b", .vNum 2)]) (.vObj [("a", .vNum 1)])
    (by simp [validateSchema, validateShape, setField, getField, lookupField]) "a" rfl

/-- A list prefix implies a successful `charsStartWith` test. -/
theorem charsStartWith_of_prefix (p : List Char) :
    ∀ (l : List Char), p <+: l → charsStartWith l p = true := by
  induction p with
  | nil => intro l _; simp [charsStartWith]
  | cons c cs ih =>
      intro l h
      rcases h with ⟨t, rfl⟩
      simp only [List.cons_append, charsStartWith]
      simp [ih (cs ++ t) ⟨t, rfl⟩]

/-- The array-index prefixing always yields a path that starts with the
bracketed index. -/
theorem prefixWithIndex_path_starts (i : Nat) (err : NormalizedError) :
    ∃ s, (prefixWithIndex i err).path = some s ∧
      strStartsWith s ("[" ++ toString i ++ "]") = true := by
  cases hp : err.path with
  | none =>
      refine ⟨"[" ++ toString i ++ "]", by simp [prefixWithIndex, hp], ?_⟩
      rw [strStartsWith]
      exact charsStartWith_of_prefix _ _ (List.prefix_refl _)
  | some s0 =>
      by_cases h0 : s0 = ""
      · refine ⟨"[" ++ toString i ++ "]", by simp [prefixWithIndex, hp, h0], ?_⟩
        rw [strStartsWith]
        exact charsStartWith_of_prefix _ _ (List.prefix_refl _)
      · refine ⟨"[" ++ toString i ++ "]." ++ s0, by simp [prefixWithIndex, hp, h0], ?_⟩
        rw [strStartsWith]
        apply charsStartWith_of_prefix
        refine ⟨'.' :: s0.data, ?_⟩
        rw [String.data_append, String.data_append, String.data_append, String.data_append]
        have h1 : ("]" : String).data = [']'] := rfl
        have h2 : ("]." : String).data = [']', '.'] := rfl
        rw [h1, h2]
        simp [List.append_assoc]

/-- The union validator never fails with an empty error list. -/
theorem validateUnion_fail_nonempty (vs : List SchemaE) (v : JsonValue) :
    validateUnion vs v ≠ .fail [] := by
  induction vs with
  | nil => simp [validateUnion, makeError]
  | cons s rest ih =>
      cases hv : validateSchema s v <;> simp [validateUnion, hv]
      exact ih

/-- No built schema ever fails with an empty error list. -/
theorem validate_fail_nonempty : (s : SchemaE) → (v : JsonValue) →
    validateSchema s v ≠ .fail []
  | .sString, v => by cases v <;> simp [validateSchema, makeError]
  | .sNumber, v => by cases v <;> simp [validateSchema, makeError]
  | .sBoolean, v => by cases v <;> simp [validateSchema, makeError]
  | .sNullable inner, v => by
      by_cases hn : isNullish v <;> simp [validateSchema, hn]
      exact validate_fail_nonempty inner v
  | .sOptional inner, v => by
      cases v <;> simp [validateSchema] <;>
        try exact validate_fail_nonempty inner _
  | .sArray item, v => by
      cases v with
      | vArr items =>
          by_cases he : (validateItems item items 0).2.isEmpty <;>
            simp [validateSchema, he]
          exact fun hc => he (by simp [hc])
      | vNull => simp [validateSchema, makeError]
      | vUndefined => simp [validateSchema, makeError]
      | vStr s => simp [validateSchema, makeError]
      | vNum n => simp [validateSchema, makeError]
      | vBool b => simp [validateSchema, makeError]
      | vObj fields => simp [validateSchema, makeError]
  | .sObject shape, v => by
      cases v with
      | vObj fields =>
          by_cases he : (validateShape shape (.vObj fields) [] []).2.isEmpty <;>
            simp [validateSchema, he]
          exact fun hc => he (by simp [hc])
      | vNull => simp [validateSchema, makeError]
      | vUndefined => simp [validateSchema, makeError]
      | vStr s => simp [validateSchema, makeError]
      | vNum n => simp [validateSchema, makeError]
      | vBool b => simp [validateSchema, makeError]
      | vArr items => simp [validateSchema, makeError]
  | .sLiteral expected, v => by
      by_cases he : jsStrictEq v expected <;> simp [validateSchema, he, makeError]
  | .sUnion variants, v => by
      rw [validateSchema]
      exact validateUnion_fail_nonempty variants v
  | .sUnknown, v => by simp [validateSchema]

/-- One step of the array-element loop, projected to the error component. -/
theorem validateItems_cons_errors (item : SchemaE) (x : JsonValue) (xs : List JsonValue)
    (i : Nat) :
    (validateItems item (x :: xs) i).2 =
      (match validateSchema item x with
       | .ok _ => ([] : List NormalizedError)
       | .fail es => es.map (prefixWithIndex i)) ++ (validateItems item xs (i + 1)).2 := by
  cases hv : validateSchema item x <;> simp [validateItems, hv]

/-- C7: the array validator never short-circuits — when elements 0 and 2
both fail, the failure's error sequence is the in-order concatenation of all
element errors, so it contains the index-0 errors before the index-2 errors,
each path-prefixed with its bracketed index. -/
theorem array_reports_all_failures (item : SchemaE) (x0 x1 x2 : JsonValue)
    (rest : List JsonValue) (e0 e2 : List NormalizedError)
    (h0 : validateSchema item x0 = .fail e0) (h2 : validateSchema item x2 = .fail e2) :
    ∃ E, validateSchema (.sArray item) (.vArr (x0 :: x1 :: x2 :: rest)) = .fail E ∧
      (∃ mid tail, E = e0.map (prefixWithIndex 0) ++ mid ++
        (e2.map (prefixWithIndex 2) ++ tail)) ∧
      (∃ e, e ∈ E ∧ ∃ s, e.path = some s ∧ strStartsWith s "[0]" = true) ∧
      (∃ e, e ∈ E ∧ ∃ s, e.path = some s ∧ strStartsWith s "[2]" = true) := by
  have he0 : e0 ≠ [] := fun hc => validate_fail_nonempty item x0 (by rw [hc] at h0; exact h0)
  have he2 : e2 ≠ [] := fun hc => validate_fail_nonempty item x2 (by rw [hc] at h2; exact h2)
  have hE2 : (validateItems item (x0 :: x1 :: x2 :: rest) 0).2 =
      e0.map (prefixWithIndex 0) ++
        ((match validateSchema item x1 with
          | .ok _ => ([] : List NormalizedError)
          | .fail es => es.map (prefixWithIndex 1)) ++
         (e2.map (prefixWithIndex 2) ++ (validateItems item rest 3).2)) := by
    rw [validateItems_cons_errors, validateItems_cons_errors, validateItems_cons_errors, h0, h2]
  have hne : (validateItems item (x0 :: x1 :: x2 :: rest) 0).2 ≠ [] := by
    rw [hE2]
    rcases e0 with _ | ⟨a0, as0⟩
    · exact absurd rfl he0
    · simp
  refine ⟨(validateItems item (x0 :: x1 :: x2 :: rest) 0).2, ?_, ?_, ?_, ?_⟩
  · have hie : (validateItems item (x0 :: x1 :: x2 :: rest) 0).2.isEmpty = false := by
      rcases hl : (validateItems item (x0 :: x1 :: x2 :: rest) 0).2 with _ | ⟨b, bs⟩
      · exact absurd hl hne
      · rfl
    simp [validateSchema, hie]
  · refine ⟨(match validateSchema item x1 with
        | ValidationResult.ok _ => ([] : List NormalizedError)
        | ValidationResult.fail es => es.map (prefixWithIndex 1)),
      (validateItems item rest 3).2, ?_⟩
    rw [hE2]
    simp [List.append_assoc]
  · rcases e0 with _ | ⟨a0, as0⟩
    · exact absurd rfl he0
    · obtain ⟨s, hs, hstarts⟩ := prefixWithIndex_path_starts 0 a0
      refine ⟨prefixWithIndex 0 a0, ?_, s, hs, hstarts⟩
      rw [hE2]
      exact List.mem_append_left _ (List.mem_map_of_mem _ (List.mem_cons_self _ _))
  · rcases e2 with _ | ⟨a2, as2⟩
    · exact absurd rfl he2
    · obtain ⟨s, hs, hstarts⟩ := prefixWithIndex_path_starts 2 a2
      refine ⟨prefixWithIndex 2 a2, ?_, s, hs, hstarts⟩
      rw [hE2]
      apply List.mem_append_right
      apply List.mem_append_right
      exact List.mem_append_left _ (List.mem_map_of_mem _ (List.mem_cons_self _ _))

/-- Witness for `array_reports_all_failures`: number schema over
`['a', 1, true]`, failing at indices 0 and 2. -/
theorem array_reports_all_failures_witness :
    ∃ E, validateSchema (.sArray .sNumber) (.vArr [.vStr "a", .vNum 1, .vBool true]) = .fail E ∧
      (∃ mid tail, E = ([makeError "" "Expected number, got string"].map (prefixWithIndex 0)) ++
        mid ++ (([makeError "" "Expected number, got boolean"].map (prefixWithIndex 2)) ++ tail)) ∧
      (∃ e, e ∈ E ∧ ∃ s, e.path = some s ∧ strStartsWith s "[0]" = true) ∧
      (∃ e, e ∈ E ∧ ∃ s, e.path = some s ∧ strStartsWith s "[2]" = true) :=
  array_reports_all_failures .sNumber (.vStr "a") (.vNum 1) (.vBool true) []
    [makeError "" "Expected number, got string"] [makeError "" "Expected number, got boolean"]
    (by simp [validateSchema, jsTypeof]; try rfl) (by simp [validateSchema, jsTypeof]; try rfl)
